import Mathlib

/-!
Shallow embedding of the azimuthal-fdf simulation core (Rust) in Lean 4.

Machine floats (`Float` = `f64` in the source) are modelled as real numbers
(`ℝ`); scheduling quantities that the source computes with `f64`/`usize`
arithmetic on exact decimal inputs are modelled with `ℚ`/`ℕ` so they stay
computable.  Fallible operations (Rust `Result`, `panic!`-style aborts and
`Option`) are modelled with explicit sum types.  Each definition carries a
reference to the source item it embeds.
-/

noncomputable section

namespace AzimuthalFDF

/-- Quaternion-shaped accumulator with four real components
(src/quaternion.rs, `struct Quaternion`). -/
structure Quaternion where
  real : ℝ
  imag_i : ℝ
  imag_j : ℝ
  imag_k : ℝ

/-- Componentwise addition (src/quaternion.rs, `impl Add for Quaternion`). -/
instance : Add Quaternion :=
  ⟨fun a b => ⟨a.real + b.real, a.imag_i + b.imag_i, a.imag_j + b.imag_j, a.imag_k + b.imag_k⟩⟩

/-- Scalar multiplication (src/quaternion.rs, `impl Mul<Float> for Quaternion`). -/
instance : HMul Quaternion ℝ Quaternion :=
  ⟨fun q c => ⟨q.real * c, q.imag_i * c, q.imag_j * c, q.imag_k * c⟩⟩

/-- Physical-space description of a mode (src/azimuthal_mode.rs, `struct Mode`). -/
structure Mode where
  amplitude : ℝ
  orientation_angle : ℝ
  phase : ℝ
  nature_angle : ℝ

/-- Numerically unconstrained encoding of a mode
(src/azimuthal_mode.rs, `struct SystemMode`). -/
structure SystemMode where
  ln_a : ℝ
  nth0 : ℝ
  phi : ℝ
  tan_2chi : ℝ

/-- Amplitude of the mode (src/azimuthal_mode.rs, `SystemMode::a`). -/
def SystemMode.a (m : SystemMode) : ℝ :=
  Real.exp m.ln_a

/-- Nature angle of the mode (src/azimuthal_mode.rs, `SystemMode::chi`). -/
def SystemMode.chi (m : SystemMode) : ℝ :=
  0.5 * Real.arctan m.tan_2chi

/-- Checked constructor (src/azimuthal_mode.rs, `SystemMode::new`); the source
panics on a non-positive amplitude or a nature angle of magnitude above pi/4,
modelled by `none`. -/
def SystemMode.new (a nth0 phi chi : ℝ) : Option SystemMode :=
  if a ≤ 0 then none
  else if Real.pi / 4 < |chi| then none
  else some ⟨Real.log a, nth0, phi, Real.tan (2 * chi)⟩

/-- Conversion Mode → SystemMode (src/azimuthal_mode.rs,
`impl From<Mode> for SystemMode`, which calls `SystemMode::new`). -/
def Mode.toSystemMode (m : Mode) : Option SystemMode :=
  SystemMode.new m.amplitude m.orientation_angle m.phase m.nature_angle

/-- Conversion SystemMode → Mode (src/azimuthal_mode.rs,
`impl From<SystemMode> for Mode`). -/
def SystemMode.toMode (m : SystemMode) : Mode :=
  ⟨m.a, m.nth0, m.phi, m.chi⟩

/-- Local amplitude at azimuthal location `theta`
(src/azimuthal_mode.rs, `SystemMode::local_amplitude`). -/
def SystemMode.local_amplitude (m : SystemMode) (theta : ℝ) (mode_order : ℕ) : ℝ :=
  m.a * Real.sqrt (((mode_order * theta - m.nth0).cos * m.chi.cos) ^ 2
    + ((mode_order * theta - m.nth0).sin * m.chi.sin) ^ 2)

/-- Two-argument arctangent, the real model of `f64::atan2(y, x)`:
the argument of the complex number `x + y·i` (zero at the origin, as in Rust). -/
def atan2 (y x : ℝ) : ℝ :=
  Complex.arg ⟨x, y⟩

/-- Fourier series component (src/fourier.rs, `struct Fourier`); the phase is
`Option ℝ`, with `none` standing for the `Float::NAN` phase of the zeroth
coefficient. -/
structure Fourier where
  amplitude : ℝ
  phase : Option ℝ

/-- Checked constructor (src/fourier.rs, `Fourier::new`): rejects a negative
amplitude. -/
def Fourier.new (amplitude : ℝ) (phase : Option ℝ) : Option Fourier :=
  if amplitude < 0 then none else some ⟨amplitude, phase⟩

/-- Normalized sine accumulator of `Fourier::coefficient`
(src/fourier.rs lines 90-105): the zipped sum
`Σ signal[k]·sin(order·theta[k] − ntheta0)` scaled by `pre_factor / n_terms`,
where `pre_factor` is 1 at the Nyquist order `thetas.len() / 2` and 2 otherwise. -/
def Fourier.sinTerm (thetas signal : List ℝ) (order : ℕ) (ntheta0 : ℝ) : ℝ :=
  (if order = thetas.length / 2 then 1 else 2)
    * ((thetas.zip signal).map
        (fun ts => ts.2 * Real.sin ((order : ℝ) * ts.1 - ntheta0))).sum
    / (thetas.length : ℝ)

/-- Normalized cosine accumulator of `Fourier::coefficient`
(src/fourier.rs lines 90-106). -/
def Fourier.cosTerm (thetas signal : List ℝ) (order : ℕ) (ntheta0 : ℝ) : ℝ :=
  (if order = thetas.length / 2 then 1 else 2)
    * ((thetas.zip signal).map
        (fun ts => ts.2 * Real.cos ((order : ℝ) * ts.1 - ntheta0))).sum
    / (thetas.length : ℝ)

/-- Fourier coefficient extraction (src/fourier.rs, `Fourier::coefficient`).
At order 0 the amplitude is the arithmetic mean of the signal and the phase is
NaN (`none`); otherwise amplitude and phase come from the normalized
accumulators, fed through the checked constructor (the source calls
`.unwrap()` on it). -/
def Fourier.coefficient (thetas signal : List ℝ) (order : ℕ) (ntheta0 : ℝ) : Option Fourier :=
  if order = 0 then
    some ⟨signal.sum / (signal.length : ℝ), none⟩
  else
    Fourier.new
      (Real.sqrt ((Fourier.sinTerm thetas signal order ntheta0) ^ 2
        + (Fourier.cosTerm thetas signal order ntheta0) ^ 2))
      (some (atan2 (Fourier.sinTerm thetas signal order ntheta0)
        (Fourier.cosTerm thetas signal order ntheta0) / (order : ℝ)))

/-- Saturation nonlinearity (src/saturation.rs, `enum Saturation`). -/
inductive Saturation where
  | Tangent (kappa : ℝ)
  | Exponential (kappa : ℝ)

/-- Elementwise saturation factor (src/saturation.rs, `Saturation::factor`). -/
def Saturation.factor : Saturation → List ℝ → List ℝ
  | .Tangent kappa, local_amplitudes =>
      local_amplitudes.map (fun a => 2 / (1 + Real.sqrt (1 + (kappa * a) ^ 2)))
  | .Exponential kappa, local_amplitudes =>
      local_amplitudes.map (fun a => Real.exp (-kappa * a))

/-- Typed configuration errors (src/parameters.rs, `enum ParametersError`).
The `ModeErr` constructor stands for the source's `ParametersError::Mode`. -/
inductive ParametersError where
  | Timestep
  | Saving
  | NegativeNumber
  | ModeErr
deriving DecidableEq

/-- Outcome of a `&mut self` method returning `Result<(), ParametersError>`:
normal return, typed error, or an uncontrolled abort of the process
(a Rust `panic!`, e.g. integer division by zero), called `panicked` here. -/
inductive Outcome where
  | ok
  | err (e : ParametersError)
  | panicked
deriving DecidableEq

/-- Simulation configuration (src/parameters.rs, `struct Parameters`).
The exact-decimal `f64` inputs `timestep` and `number_of_cycles` are modelled
as rationals so the derived `usize` fields stay exactly computable. -/
structure Parameters where
  damping : ℝ
  gain : ℝ
  noise : ℝ
  mode_order : ℕ
  number_of_burners : ℕ
  initial_mode : Mode
  timestep : ℚ
  number_of_cycles : ℚ
  saves_per_cycle : ℕ
  skip_per_save : ℕ
  total_steps : ℕ
  steps_per_cycle : ℕ
  num_steps_to_save : ℕ
  thetas : List ℝ

/-- Outcome of `Parameters::new`, which returns a fresh value on success. -/
inductive NewResult where
  | ok (p : Parameters)
  | err (e : ParametersError)
  | panicked

/-- Set the timestep and recompute the derived cadence fields
(src/parameters.rs, `Parameters::set_timestep`).  The source computes
`total_steps`, `steps_per_cycle` and `skip_per_save` in that order and then
evaluates `total_steps / skip_per_save` with `usize` division, which panics
when `skip_per_save == 0` (i.e. when `round(1/dt) < saves_per_cycle`, or when
`saves_per_cycle == 0`, in which case the earlier division already panics);
at that point the first three fields are already written.  Rust's
`f64::round` is round-half-away-from-zero, which on the positive value
`1/dt` agrees with Mathlib's `round`; `as usize` on the non-negative ceil
is `Int.toNat`. -/
def Parameters.set_timestep (p : Parameters) (new_timestep : ℚ) : Parameters × Outcome :=
  if new_timestep ≤ 0 ∨ 1 < new_timestep then (p, .err .Timestep)
  else if p.number_of_cycles < 0 then (p, .err .NegativeNumber)
  else if (round ((1 : ℚ) / new_timestep)).toNat / p.saves_per_cycle = 0 then
    ({ p with
        total_steps := (⌈p.number_of_cycles / new_timestep⌉).toNat,
        steps_per_cycle := (round ((1 : ℚ) / new_timestep)).toNat,
        skip_per_save := 0 }, .panicked)
  else
    ({ p with
        total_steps := (⌈p.number_of_cycles / new_timestep⌉).toNat,
        steps_per_cycle := (round ((1 : ℚ) / new_timestep)).toNat,
        skip_per_save := (round ((1 : ℚ) / new_timestep)).toNat / p.saves_per_cycle,
        num_steps_to_save := (⌈p.number_of_cycles / new_timestep⌉).toNat
          / ((round ((1 : ℚ) / new_timestep)).toNat / p.saves_per_cycle),
        timestep := new_timestep }, .ok)

/-- Initialize the private fields (src/parameters.rs, `Parameters::init`):
set up the equidistant burner grid, then run `set_timestep` on the stored
timestep. -/
def Parameters.init (p : Parameters) : Parameters × Outcome :=
  ({ p with thetas := ((List.range p.number_of_burners).map
      (fun ind => 2 * Real.pi / (p.number_of_burners : ℝ) * (ind : ℝ))) }).set_timestep
    p.timestep

/-- The raw value `Parameters::new` fills with the user data and zeroed
derived fields before running `init` (src/parameters.rs lines 83-99). -/
def Parameters.raw (damping gain noise : ℝ) (mode_order number_of_burners : ℕ)
    (initial_mode : Mode) (timestep number_of_cycles : ℚ)
    (saves_per_cycle : ℕ) : Parameters :=
  { damping := damping, gain := gain, noise := noise,
    mode_order := mode_order, number_of_burners := number_of_burners,
    initial_mode := initial_mode, timestep := timestep,
    number_of_cycles := number_of_cycles, saves_per_cycle := saves_per_cycle,
    skip_per_save := 0, total_steps := 0, steps_per_cycle := 0,
    num_steps_to_save := 0, thetas := [] }

/-- Checked construction (src/parameters.rs, `Parameters::new`): validate the
timestep and save cadence, build the raw value, then `init` it.  On an error
from `init` the partially built value is dropped. -/
def Parameters.new (damping gain noise : ℝ) (mode_order number_of_burners : ℕ)
    (initial_mode : Mode) (timestep number_of_cycles : ℚ)
    (saves_per_cycle : ℕ) : NewResult :=
  if timestep ≤ 0 ∨ 1 < timestep then .err .Timestep
  else if saves_per_cycle < 2 then .err .Saving
  else
    match (Parameters.raw damping gain noise mode_order number_of_burners
        initial_mode timestep number_of_cycles saves_per_cycle).init with
    | (q, .ok) => .ok q
    | (_, .err e) => .err e
    | (_, .panicked) => .panicked

/-- Set the cycle count (src/parameters.rs, `Parameters::set_number_of_cycles`):
the source stores the new value into `self` before revalidating through
`set_timestep`, so a validation error leaves the stored cycle count changed. -/
def Parameters.set_number_of_cycles (p : Parameters) (number_of_cycles : ℚ) :
    Parameters × Outcome :=
  ({ p with number_of_cycles := number_of_cycles }).set_timestep p.timestep

/-- Set the save cadence (src/parameters.rs, `Parameters::set_saves_per_cycle`). -/
def Parameters.set_saves_per_cycle (p : Parameters) (saves_per_cycle : ℕ) :
    Parameters × Outcome :=
  if saves_per_cycle < 2 then (p, .err .Saving)
  else ({ p with saves_per_cycle := saves_per_cycle }).set_timestep p.timestep

/-- The times of the log entries emitted by one run (src/simulate.rs,
`Settings::run`): an initial log at time 0, then, for step indices
`1..=total_steps`, a log at time `ind · timestep` whenever
`ind % skip_per_save == 0`. -/
def runLogTimes (p : Parameters) : List ℚ :=
  0 :: ((List.range' 1 p.total_steps).filter
      (fun ind => ind % p.skip_per_save == 0)).map
    (fun ind => (ind : ℚ) * p.timestep)

/-- The four derived cadence fields are exactly the functions of the three
inputs stated in the design: `steps_per_cycle = round(1/timestep)`,
`total_steps = ceil(number_of_cycles/timestep)`,
`skip_per_save = steps_per_cycle / saves_per_cycle` (integer division) and
`num_steps_to_save = total_steps / skip_per_save`. -/
def derivedConsistent (q : Parameters) : Prop :=
  q.steps_per_cycle = (round ((1 : ℚ) / q.timestep)).toNat
  ∧ q.total_steps = (⌈q.number_of_cycles / q.timestep⌉).toNat
  ∧ q.skip_per_save = q.steps_per_cycle / q.saves_per_cycle
  ∧ q.num_steps_to_save = q.total_steps / q.skip_per_save

/-- Simplified azimuthal flame describing function
(src/hrr_integral/simplified.rs, `struct AFDFSimplified`). -/
structure AFDFSimplified where
  gain_ratio_r : ℝ

/-- Checked constructor (src/hrr_integral/simplified.rs, `AFDFSimplified::new`):
the source panics on a negative gain ratio, modelled by `none`. -/
def AFDFSimplified.mk? (gain_ratio_r : ℝ) : Option AFDFSimplified :=
  if gain_ratio_r < 0 then none else some ⟨gain_ratio_r⟩

/-- Conventional flame describing function
(src/hrr_integral/conventional.rs, `struct ConventionalFDF`). -/
structure ConventionalFDF where
  model : AFDFSimplified

/-- Constructor (src/hrr_integral/conventional.rs, `ConventionalFDF::new`):
the wrapped model always has `gain_ratio_r = 1`. -/
def ConventionalFDF.new : ConventionalFDF :=
  ⟨⟨1⟩⟩

/-- Closed sum of describing-function variants
(src/hrr_integral/mod.rs, `enum DescribingFunction`). -/
inductive DescribingFunction where
  | Conventional (hrr : ConventionalFDF)
  | Simplified (hrr : AFDFSimplified)

/-- The parts of the simulation settings the core numerics read
(src/settings.rs, `struct Settings`); the observer is outside the embedded
core and the random source is passed explicitly as draws. -/
structure Settings where
  parameters : Parameters
  saturation : Saturation
  describing_function : DescribingFunction

/-- Heat release rate mode of the simplified AFDF
(src/hrr_integral/simplified.rs, `AFDFSimplified::mode`): orientation angle
and phase are copied; amplitude and nature angle are re-encoded from the
amplitude factor and the rotated nature angle. -/
def AFDFSimplified.mode (df : AFDFSimplified) (acoustic_mode : SystemMode) : SystemMode :=
  { acoustic_mode with
      ln_a := Real.log (acoustic_mode.a
        * Real.sqrt (1 + (df.gain_ratio_r ^ 2 - 1) / (df.gain_ratio_r ^ 2 + 1)
            * Real.sin (2 * acoustic_mode.chi))),
      tan_2chi := Real.tan (2 * Real.arctan
        (((df.gain_ratio_r - 1) * Real.cos acoustic_mode.chi
            + (df.gain_ratio_r + 1) * Real.sin acoustic_mode.chi)
          / ((df.gain_ratio_r + 1) * Real.cos acoustic_mode.chi
            + (df.gain_ratio_r - 1) * Real.sin acoustic_mode.chi))) }

/-- Local amplitude at each flame location
(src/hrr_integral/mod.rs, `local_amplitudes`). -/
def local_amplitudes (mode : SystemMode) (parameters : Parameters) : List ℝ :=
  parameters.thetas.map (fun theta => mode.local_amplitude theta parameters.mode_order)

/-- Saturated gain values (src/hrr_integral/mod.rs, `saturated_gain`):
the saturation factors of the heat-release local amplitudes, each scaled by
`gain · hrr_mode.a() / acoustic_mode.a()`. -/
def saturated_gain (hrr_mode acoustic_mode : SystemMode) (setup : Settings) : List ℝ :=
  (setup.saturation.factor (local_amplitudes hrr_mode setup.parameters)).map
    (fun sf => setup.parameters.gain * hrr_mode.a / acoustic_mode.a * sf)

/-- Junk value standing in for the `Fourier` a `.unwrap()` of `none` would
never produce; `Fourier.coefficient` always returns `some`
(stated below as `Fourier.coefficient_isSome`), so this default is dead. -/
def junkFourier : Fourier :=
  ⟨0, none⟩

/-- Heat release rate integral of the simplified AFDF
(src/hrr_integral/simplified.rs, `AFDFSimplified::integral`).  The source
reads the raw `f64` phase of the order-`2n` coefficient; the `Option`-model
default `.getD 0` is only reached for `mode_order = 0`, where the source
would propagate a NaN phase. -/
def AFDFSimplified.integral (df : AFDFSimplified) (acoustic_mode : SystemMode)
    (setup : Settings) : Quaternion :=
  let hrr_mode := df.mode acoustic_mode
  let gain_values := saturated_gain hrr_mode acoustic_mode setup
  let fourier0 := (Fourier.coefficient setup.parameters.thetas gain_values 0
      hrr_mode.nth0).getD junkFourier
  let fourier2n := (Fourier.coefficient setup.parameters.thetas gain_values
      (2 * setup.parameters.mode_order) hrr_mode.nth0).getD junkFourier
  let n0 := fourier0.amplitude
  let n2n := fourier2n.amplitude
  let theta2n := fourier2n.phase.getD 0
  let delta_chi := hrr_mode.chi - acoustic_mode.chi
  let chi := acoustic_mode.chi
  let alpha := setup.parameters.damping
  let n : ℝ := setup.parameters.mode_order
  ⟨0.5 * n2n * Real.cos (2 * n * theta2n) * Real.cos (2 * chi + delta_chi)
      + (n0 * Real.cos delta_chi - alpha),
    0.5 * (n2n * Real.sin (2 * n * theta2n) * Real.cos (2 * chi + delta_chi)),
    0.5 * (-n2n * Real.sin (2 * n * theta2n) * Real.sin (2 * chi + delta_chi)),
    0.5 * n2n * Real.cos (2 * n * theta2n) * Real.sin (2 * chi + delta_chi)
      + -(n0 * Real.sin delta_chi)⟩

/-- Delegating integral (src/hrr_integral/conventional.rs,
`impl HeatReleaseRate for ConventionalFDF`). -/
def ConventionalFDF.integral (df : ConventionalFDF) (acoustic_mode : SystemMode)
    (setup : Settings) : Quaternion :=
  df.model.integral acoustic_mode setup

/-- Delegating mode (src/hrr_integral/conventional.rs,
`impl HeatReleaseRate for ConventionalFDF`). -/
def ConventionalFDF.mode (df : ConventionalFDF) (acoustic_mode : SystemMode) : SystemMode :=
  df.model.mode acoustic_mode

/-- Exhaustive dispatch of the integral (src/hrr_integral/mod.rs,
`impl HeatReleaseRate for DescribingFunction`). -/
def DescribingFunction.integral : DescribingFunction → SystemMode → Settings → Quaternion
  | .Conventional hrr, acoustic_mode, setup => hrr.integral acoustic_mode setup
  | .Simplified hrr, acoustic_mode, setup => hrr.integral acoustic_mode setup

/-- Exhaustive dispatch of the mode (src/hrr_integral/mod.rs,
`impl HeatReleaseRate for DescribingFunction`). -/
def DescribingFunction.mode : DescribingFunction → SystemMode → SystemMode
  | .Conventional hrr, acoustic_mode => hrr.mode acoustic_mode
  | .Simplified hrr, acoustic_mode => hrr.mode acoustic_mode

/-- Deterministic noise correction (src/simulate.rs,
`Settings::deterministic_stochastic`):
the quaternion `(noise²/(4a²), 0, 0, (noise²/(4a²))·tan_2chi)`. -/
def Settings.deterministic_stochastic (s : Settings) (mode : SystemMode) : Quaternion :=
  ⟨s.parameters.noise ^ 2 / (4 * mode.a ^ 2), 0, 0,
    s.parameters.noise ^ 2 / (4 * mode.a ^ 2) * mode.tan_2chi⟩

/-- Right-hand side of one discrete step (src/simulate.rs, `Settings::get_rhs`):
drift part `(integral + correction)·dt` plus diffusion part
`draw·(noise/(a·sqrt 2))·sqrt(dt)`, where `draw` is the quaternion of four
standard-normal samples returned by `RNG::get_random`. -/
def Settings.get_rhs (s : Settings) (mode : SystemMode) (draw : Quaternion) : Quaternion :=
  (s.describing_function.integral mode s + s.deterministic_stochastic mode)
      * ((s.parameters.timestep : ℚ) : ℝ)
    + (draw * (s.parameters.noise / (mode.a * Real.sqrt 2)))
      * Real.sqrt ((s.parameters.timestep : ℚ) : ℝ)

/-- In-place state update (src/simulate.rs, `Settings::update_mode`); `chi`
and `tan_2chi` are read before any component is written. -/
def update_mode (mode : SystemMode) (rhs : Quaternion) : SystemMode :=
  { mode with
      ln_a := mode.ln_a + rhs.real,
      nth0 := mode.nth0 + (rhs.imag_i - mode.tan_2chi * rhs.imag_j),
      phi := mode.phi + rhs.imag_j / Real.cos (2 * mode.chi),
      tan_2chi := mode.tan_2chi + -2 * rhs.imag_k / Real.cos (2 * mode.chi) ^ 2 }

/-- One iteration of the integration loop (src/simulate.rs, `Settings::run`,
loop body): compute the right-hand side from the current state and one random
draw, then update the state. -/
def Settings.step (s : Settings) (mode : SystemMode) (draw : Quaternion) : SystemMode :=
  update_mode mode (s.get_rhs mode draw)

/-- State trajectory of a run (src/simulate.rs, `Settings::run`): the state
after `n` steps, starting from `init` and consuming the stream `draws` of
random quaternions one per step. -/
def Settings.trajectory (s : Settings) (init : SystemMode) (draws : ℕ → Quaternion) :
    ℕ → SystemMode
  | 0 => init
  | n + 1 => s.step (s.trajectory init draws n) (draws n)

/-- Concrete default-style mode used to instantiate theorems
(src/azimuthal_mode.rs, `impl Default for Mode`). -/
def m0 : Mode :=
  ⟨1, 0, 0, 0⟩

/-- A concrete validly-constructed parameter set used to instantiate
theorems about the setters. -/
def p0 : Parameters :=
  { damping := 0, gain := 0, noise := 0, mode_order := 1, number_of_burners := 12,
    initial_mode := m0, timestep := 1/2, number_of_cycles := 0, saves_per_cycle := 2,
    skip_per_save := 1, total_steps := 0, steps_per_cycle := 2, num_steps_to_save := 0,
    thetas := [] }

/-- The parameter set the end-to-end scenario of the design (12 burners,
mode order 1, `timestep = 1e-4`, one cycle, 50 saves per cycle) must
produce, with the derived cadence values written out. -/
def q4 (d g n : ℝ) (im : Mode) : Parameters :=
  { damping := d, gain := g, noise := n, mode_order := 1, number_of_burners := 12,
    initial_mode := im, timestep := 1/10000, number_of_cycles := 1, saves_per_cycle := 50,
    skip_per_save := 200, total_steps := 10000, steps_per_cycle := 10000,
    num_steps_to_save := 50,
    thetas := (List.range 12).map (fun ind => 2 * Real.pi / ((12 : ℕ) : ℝ) * (ind : ℝ)) }

/-- Concrete initial system state (the default standing mode). -/
def sm0 : SystemMode :=
  ⟨0, 0, 0, 0⟩

/-- Concrete settings with zero noise used to instantiate theorems. -/
def s0 : Settings :=
  ⟨p0, .Tangent 6, .Simplified ⟨1⟩⟩

end AzimuthalFDF

end

namespace AzimuthalFDF

/-! Helper lemmas shared by the claim theorems. -/

theorem Quaternion.add_components (a b : Quaternion) :
    a + b = ⟨a.real + b.real, a.imag_i + b.imag_i, a.imag_j + b.imag_j,
      a.imag_k + b.imag_k⟩ :=
  rfl

theorem Quaternion.mul_components (q : Quaternion) (c : ℝ) :
    q * c = ⟨q.real * c, q.imag_i * c, q.imag_j * c, q.imag_k * c⟩ :=
  rfl

theorem SystemMode.a_pos (m : SystemMode) : 0 < m.a :=
  Real.exp_pos _

theorem SystemMode.neg_pi_div_four_lt_chi (m : SystemMode) :
    -(Real.pi / 4) < m.chi := by
  have h := Real.neg_pi_div_two_lt_arctan m.tan_2chi
  unfold SystemMode.chi
  norm_num
  linarith

theorem SystemMode.chi_lt_pi_div_four (m : SystemMode) :
    m.chi < Real.pi / 4 := by
  have h := Real.arctan_lt_pi_div_two m.tan_2chi
  unfold SystemMode.chi
  norm_num
  linarith

/-- C1.  One integrator step forms the right-hand side
`rhs = (integral + correction)·dt + G·sqrt(dt)` with the Itô drift
correction `(noise²/(4a²), 0, 0, (noise²/(4a²))·tan_2chi)` and `G` the four
standard-normal draws scaled by `noise/(a·sqrt 2)`, and then updates the
state in place by `ln_a += rhs.real`, `nth0 += rhs.i − tan_2chi·rhs.j`,
`phi += rhs.j/cos(2·chi)`, `tan_2chi += −2·rhs.k/cos(2·chi)²`, with `chi`
and `tan_2chi` read before the update. -/
theorem C1_step_forms_rhs_and_update (s : Settings) (mode : SystemMode)
    (draw rhs : Quaternion) :
    s.get_rhs mode draw
      = (s.describing_function.integral mode s
          + ⟨s.parameters.noise ^ 2 / (4 * mode.a ^ 2), 0, 0,
              s.parameters.noise ^ 2 / (4 * mode.a ^ 2) * mode.tan_2chi⟩)
          * ((s.parameters.timestep : ℚ) : ℝ)
        + (draw * (s.parameters.noise / (mode.a * Real.sqrt 2)))
          * Real.sqrt ((s.parameters.timestep : ℚ) : ℝ)
    ∧ update_mode mode rhs
      = { ln_a := mode.ln_a + rhs.real,
          nth0 := mode.nth0 + (rhs.imag_i - mode.tan_2chi * rhs.imag_j),
          phi := mode.phi + rhs.imag_j / Real.cos (2 * mode.chi),
          tan_2chi := mode.tan_2chi + -2 * rhs.imag_k / Real.cos (2 * mode.chi) ^ 2 } :=
  ⟨rfl, rfl⟩

/-- C6.  Every `SystemMode` decodes to a strictly positive amplitude and a
nature angle strictly inside `(−π/4, π/4)`, and the additive integrator
update preserves this by construction. -/
theorem C6_systemmode_invariants (m : SystemMode) (rhs : Quaternion) :
    (0 < m.a ∧ -(Real.pi / 4) < m.chi ∧ m.chi < Real.pi / 4)
    ∧ (0 < (update_mode m rhs).a
        ∧ -(Real.pi / 4) < (update_mode m rhs).chi
        ∧ (update_mode m rhs).chi < Real.pi / 4) :=
  ⟨⟨m.a_pos, m.neg_pi_div_four_lt_chi, m.chi_lt_pi_div_four⟩,
    ⟨(update_mode m rhs).a_pos, (update_mode m rhs).neg_pi_div_four_lt_chi,
      (update_mode m rhs).chi_lt_pi_div_four⟩⟩

/-- C8.  The Conventional describing function delegates to the Simplified one
with `gain_ratio_r = 1`, and with `gain_ratio_r = 1` the Simplified heat
release rate mode is exactly the input acoustic mode: amplitude factor 1,
nature angle equal to the acoustic nature angle, orientation angle and phase
copied unchanged. -/
theorem C8_conventional_is_simplified_r1 (acoustic_mode : SystemMode) (setup : Settings) :
    ConventionalFDF.new.integral acoustic_mode setup
      = (AFDFSimplified.mk 1).integral acoustic_mode setup
    ∧ ConventionalFDF.new.mode acoustic_mode = (AFDFSimplified.mk 1).mode acoustic_mode
    ∧ (AFDFSimplified.mk 1).mode acoustic_mode = acoustic_mode := by
  refine ⟨rfl, rfl, ?_⟩
  obtain ⟨la, nt, ph, tc⟩ := acoustic_mode
  have hchi : SystemMode.chi ⟨la, nt, ph, tc⟩ = 0.5 * Real.arctan tc := rfl
  have hb1 := Real.neg_pi_div_two_lt_arctan tc
  have hb2 := Real.arctan_lt_pi_div_two tc
  have hpi := Real.pi_pos
  unfold AFDFSimplified.mode
  rw [hchi]
  have hL : Real.log (SystemMode.a ⟨la, nt, ph, tc⟩
      * Real.sqrt (1 + ((1 : ℝ) ^ 2 - 1) / ((1 : ℝ) ^ 2 + 1)
        * Real.sin (2 * (0.5 * Real.arctan tc)))) = la := by
    rw [show ((1 : ℝ) ^ 2 - 1) / ((1 : ℝ) ^ 2 + 1) = 0 by norm_num, zero_mul, add_zero,
      Real.sqrt_one, mul_one]
    exact Real.log_exp la
  have hT : Real.tan (2 * Real.arctan
      ((((1 : ℝ) - 1) * Real.cos (0.5 * Real.arctan tc)
          + ((1 : ℝ) + 1) * Real.sin (0.5 * Real.arctan tc))
        / (((1 : ℝ) + 1) * Real.cos (0.5 * Real.arctan tc)
          + ((1 : ℝ) - 1) * Real.sin (0.5 * Real.arctan tc)))) = tc := by
    rw [show ((1 : ℝ) - 1) = 0 by norm_num, show ((1 : ℝ) + 1) = 2 by norm_num,
      zero_mul, zero_add, zero_mul, add_zero,
      mul_div_mul_left _ _ (two_ne_zero (α := ℝ)),
      ← Real.tan_eq_sin_div_cos,
      Real.arctan_tan (by linarith) (by linarith),
      show (2 : ℝ) * (0.5 * Real.arctan tc) = Real.arctan tc by ring,
      Real.tan_arctan]
  rw [hL, hT]

/-- C9.  The saturation variants map local amplitudes elementwise to
`2/(1 + sqrt(1 + (κ·a)²))` (Tangent) and `exp(−κ·a)` (Exponential); for
`κ > 0` and amplitudes `0 ≤ a ≤ b` the factors lie in `(0, 1]`, are
non-increasing, and equal exactly 1 at `a = 0`. -/
theorem C9_saturation_factor (kappa : ℝ) (amps : List ℝ) :
    ((Saturation.Tangent kappa).factor amps
        = amps.map (fun a => 2 / (1 + Real.sqrt (1 + (kappa * a) ^ 2)))
      ∧ (Saturation.Exponential kappa).factor amps
        = amps.map (fun a => Real.exp (-kappa * a)))
    ∧ (0 < kappa → ∀ a b : ℝ, 0 ≤ a → a ≤ b →
        ∀ fa fb : ℝ, (Saturation.Tangent kappa).factor [a] = [fa] →
          (Saturation.Tangent kappa).factor [b] = [fb] →
          0 < fa ∧ fa ≤ 1 ∧ fb ≤ fa)
    ∧ (0 < kappa → ∀ a b : ℝ, 0 ≤ a → a ≤ b →
        ∀ fa fb : ℝ, (Saturation.Exponential kappa).factor [a] = [fa] →
          (Saturation.Exponential kappa).factor [b] = [fb] →
          0 < fa ∧ fa ≤ 1 ∧ fb ≤ fa)
    ∧ (Saturation.Tangent kappa).factor [0] = [1]
    ∧ (Saturation.Exponential kappa).factor [0] = [1] := by
  refine ⟨⟨rfl, rfl⟩, ?_, ?_, ?_, ?_⟩
  · intro hk a b ha hab fa fb hfa hfb
    simp only [Saturation.factor, List.map_cons, List.map_nil, List.cons.injEq,
      and_true] at hfa hfb
    have h1a : (1 : ℝ) ≤ Real.sqrt (1 + (kappa * a) ^ 2) := by
      have := Real.sqrt_le_sqrt (show (1 : ℝ) ≤ 1 + (kappa * a) ^ 2 by linarith [sq_nonneg (kappa * a)])
      rwa [Real.sqrt_one] at this
    have h1b : (1 : ℝ) ≤ Real.sqrt (1 + (kappa * b) ^ 2) := by
      have := Real.sqrt_le_sqrt (show (1 : ℝ) ≤ 1 + (kappa * b) ^ 2 by linarith [sq_nonneg (kappa * b)])
      rwa [Real.sqrt_one] at this
    have hmono : Real.sqrt (1 + (kappa * a) ^ 2) ≤ Real.sqrt (1 + (kappa * b) ^ 2) := by
      apply Real.sqrt_le_sqrt
      have hka : 0 ≤ kappa * a := mul_nonneg hk.le ha
      have hle : kappa * a ≤ kappa * b := mul_le_mul_of_nonneg_left hab hk.le
      have := pow_le_pow_left₀ hka hle 2
      linarith
    refine ⟨?_, ?_, ?_⟩
    · rw [← hfa]; positivity
    · rw [← hfa]
      rw [div_le_one (by linarith)]
      linarith
    · rw [← hfa, ← hfb]
      apply div_le_div_of_nonneg_left (by norm_num) (by linarith) (by linarith)
  · intro hk a b ha hab fa fb hfa hfb
    simp only [Saturation.factor, List.map_cons, List.map_nil, List.cons.injEq,
      and_true] at hfa hfb
    refine ⟨?_, ?_, ?_⟩
    · rw [← hfa]; positivity
    · rw [← hfa]
      apply Real.exp_le_one_iff.mpr
      nlinarith
    · rw [← hfa, ← hfb]
      apply Real.exp_le_exp.mpr
      nlinarith
  · show (Saturation.Tangent kappa).factor [0] = [1]
    simp only [Saturation.factor, List.map_cons, List.map_nil]
    norm_num [Real.sqrt_one]
  · show (Saturation.Exponential kappa).factor [0] = [1]
    simp only [Saturation.factor, List.map_cons, List.map_nil]
    norm_num [Real.exp_zero]

/-- Witness for C9 at `κ = 1` and `a = b = 0`: both factors are 1 there, so
all three bounds are the trivial ones. -/
theorem C9_saturation_factor_witness :
    ((0 : ℝ) < 1 ∧ (1 : ℝ) ≤ 1 ∧ (1 : ℝ) ≤ 1) ∧ ((0 : ℝ) < 1 ∧ (1 : ℝ) ≤ 1 ∧ (1 : ℝ) ≤ 1) := by
  have h := C9_saturation_factor 1 []
  have htan : (Saturation.Tangent 1).factor [0] = [1] := h.2.2.2.1
  have hexp : (Saturation.Exponential 1).factor [0] = [1] := h.2.2.2.2
  exact ⟨h.2.1 one_pos 0 0 le_rfl le_rfl 1 1 htan htan,
    h.2.2.1 one_pos 0 0 le_rfl le_rfl 1 1 hexp hexp⟩

/-- C10.  With `noise = 0` the trajectory is independent of the drawn noise
quaternions, and runs consuming equal draw streams (the model of a fixed
noise-source seed) produce equal trajectories. -/
theorem C10_determinism (s : Settings) (init : SystemMode) :
    (s.parameters.noise = 0 →
      ∀ d₁ d₂ : ℕ → Quaternion, ∀ n, s.trajectory init d₁ n = s.trajectory init d₂ n)
    ∧ (∀ d₁ d₂ : ℕ → Quaternion, d₁ = d₂ →
        ∀ n, s.trajectory init d₁ n = s.trajectory init d₂ n) := by
  constructor
  · intro h d₁ d₂ n
    induction n with
    | zero => rfl
    | succ k ih =>
      show s.step (s.trajectory init d₁ k) (d₁ k) = s.step (s.trajectory init d₂ k) (d₂ k)
      rw [ih]
      unfold Settings.step Settings.get_rhs
      rw [h]
      simp [Quaternion.mul_components]
  · intro d₁ d₂ h n
    rw [h]

/-- Witness for C10: a concrete zero-noise setting where two different draw
streams give the same three-step trajectory. -/
theorem C10_determinism_witness :
    s0.trajectory sm0 (fun _ => ⟨1, 1, 1, 1⟩) 3 = s0.trajectory sm0 (fun _ => ⟨0, 0, 0, 0⟩) 3
    ∧ s0.trajectory sm0 (fun _ => ⟨1, 1, 1, 1⟩) 2 = s0.trajectory sm0 (fun _ => ⟨1, 1, 1, 1⟩) 2 :=
  ⟨(C10_determinism s0 sm0).1 rfl _ _ 3,
    (C10_determinism s0 sm0).2 _ _ rfl 2⟩

/-- Counterexample to C5 as stated: at the boundary `nature_angle = π/4`
(allowed by the claim's `|nature_angle| ≤ π/4`), the encoding stores
`tan(π/2)`, which in the real-number model is not the value of an invertible
tangent — the round trip returns nature angle 0, not `π/4`. -/
theorem C5_roundtrip_counterexample :
    ((Mode.mk 1 0 0 (Real.pi / 4)).toSystemMode).map SystemMode.toMode
      ≠ some (Mode.mk 1 0 0 (Real.pi / 4)) := by
  have hpi := Real.pi_pos
  have h1 : ¬ ((1 : ℝ) ≤ 0) := by norm_num
  have h2 : ¬ (Real.pi / 4 < |Real.pi / 4|) := by
    rw [abs_of_pos (by linarith)]
    exact lt_irrefl _
  have htan : Real.tan (2 * (Real.pi / 4)) = 0 := by
    rw [show (2 : ℝ) * (Real.pi / 4) = Real.pi / 2 by ring, Real.tan_pi_div_two]
  intro h
  simp only [Mode.toSystemMode, SystemMode.new, h1, h2, if_false, htan] at h
  rw [Option.map_some'] at h
  have heq := Option.some.inj h
  have hna := congrArg Mode.nature_angle heq
  simp only [SystemMode.toMode, SystemMode.chi, Real.arctan_zero, mul_zero] at hna
  linarith

/-- C5 (amended).  For every Mode with `amplitude > 0` and
`|nature_angle| < π/4` (strictly inside the boundary, where the tangent
used by the encoding is invertible), converting to `SystemMode` succeeds and
converting back recovers amplitude, orientation angle, phase and nature
angle exactly in the real-number model. -/
theorem C5_roundtrip (m : Mode) (ha : 0 < m.amplitude)
    (hchi : |m.nature_angle| < Real.pi / 4) :
    ∃ s : SystemMode, m.toSystemMode = some s ∧ s.toMode = m := by
  have h1 : ¬ (m.amplitude ≤ 0) := not_le.mpr ha
  have h2 : ¬ (Real.pi / 4 < |m.nature_angle|) := not_lt.mpr hchi.le
  have habs := abs_lt.mp hchi
  refine ⟨⟨Real.log m.amplitude, m.orientation_angle, m.phase,
    Real.tan (2 * m.nature_angle)⟩, ?_, ?_⟩
  · simp [Mode.toSystemMode, SystemMode.new, h1, h2]
  · unfold SystemMode.toMode SystemMode.a SystemMode.chi
    obtain ⟨amp, ort, ph, na⟩ := m
    simp only at h1 habs ha ⊢
    rw [Real.exp_log ha, Real.arctan_tan (by linarith) (by linarith),
      show (0.5 : ℝ) * (2 * na) = na by ring]

/-- Witness for the amended C5 at the default standing mode. -/
theorem C5_roundtrip_witness :
    ∃ s : SystemMode, Mode.toSystemMode ⟨1, 0, 0, 0⟩ = some s ∧ s.toMode = ⟨1, 0, 0, 0⟩ :=
  C5_roundtrip ⟨1, 0, 0, 0⟩ (by norm_num)
    (by rw [abs_zero]; positivity)

/-- The zipped accumulator sums of `Fourier::coefficient` coincide with the
index-based sums `Σ_k g(theta[k], signal[k])` over `k < N` when the two
lists have equal length. -/
theorem sum_map_zip_eq_sum_range (g : ℝ → ℝ → ℝ) :
    ∀ xs ys : List ℝ, xs.length = ys.length →
      ((xs.zip ys).map (fun p => g p.1 p.2)).sum
        = ((List.range xs.length).map
            (fun k => g (xs.getD k 0) (ys.getD k 0))).sum := by
  intro xs
  induction xs with
  | nil => intro ys h; simp
  | cons x xs ih =>
    intro ys h
    cases ys with
    | nil => simp at h
    | cons y ys =>
      have hlen : xs.length = ys.length := by
        simpa using h
      simp only [List.zip_cons_cons, List.map_cons, List.sum_cons, List.length_cons,
        List.range_succ_eq_map, List.map_map, Function.comp_def, List.getD_cons_zero,
        List.getD_cons_succ]
      exact congrArg (g x y + ·) (ih ys hlen)

/-- The checked constructor inside `Fourier::coefficient` never rejects:
the amplitude is a square root, hence non-negative, so the source's
`.unwrap()` cannot panic. -/
theorem Fourier.coefficient_isSome (thetas signal : List ℝ) (order : ℕ) (ntheta0 : ℝ) :
    (Fourier.coefficient thetas signal order ntheta0).isSome := by
  unfold Fourier.coefficient
  split
  · rfl
  · unfold Fourier.new
    rw [if_neg (not_lt.mpr (Real.sqrt_nonneg _))]
    rfl

/-- C7.  For equal-length location/signal lists of length `N ≥ 1`:
at order 0 the coefficient is the arithmetic mean with NaN (`none`) phase;
at every order ≥ 1 the normalized accumulators are the index sums
`Σ signal[k]·sin/cos(order·theta[k] − ntheta0)` scaled by `f/N` with `f = 1`
exactly at the integer-division Nyquist order `N/2` and 2 otherwise, the
amplitude is `sqrt(sin_term² + cos_term²) ≥ 0` (so the internal
non-negativity check never fails and the result is `some`), and the phase is
`atan2(sin_term, cos_term)/order`. -/
theorem C7_fourier_coefficient (thetas signal : List ℝ) (order : ℕ) (ntheta0 : ℝ)
    (hlen : thetas.length = signal.length) (hN : 1 ≤ thetas.length) :
    Fourier.coefficient thetas signal 0 ntheta0
      = some ⟨signal.sum / (signal.length : ℝ), none⟩
    ∧ (1 ≤ order →
        Fourier.sinTerm thetas signal order ntheta0
          = (if order = thetas.length / 2 then 1 else 2)
            * ((List.range thetas.length).map
                (fun k => signal.getD k 0
                  * Real.sin ((order : ℝ) * thetas.getD k 0 - ntheta0))).sum
            / (thetas.length : ℝ)
        ∧ Fourier.cosTerm thetas signal order ntheta0
          = (if order = thetas.length / 2 then 1 else 2)
            * ((List.range thetas.length).map
                (fun k => signal.getD k 0
                  * Real.cos ((order : ℝ) * thetas.getD k 0 - ntheta0))).sum
            / (thetas.length : ℝ)
        ∧ Fourier.coefficient thetas signal order ntheta0
          = some ⟨Real.sqrt ((Fourier.sinTerm thetas signal order ntheta0) ^ 2
                + (Fourier.cosTerm thetas signal order ntheta0) ^ 2),
              some (atan2 (Fourier.sinTerm thetas signal order ntheta0)
                (Fourier.cosTerm thetas signal order ntheta0) / (order : ℝ))⟩
        ∧ 0 ≤ Real.sqrt ((Fourier.sinTerm thetas signal order ntheta0) ^ 2
                + (Fourier.cosTerm thetas signal order ntheta0) ^ 2)) := by
  constructor
  · rfl
  · intro horder
    have hne : order ≠ 0 := by omega
    refine ⟨?_, ?_, ?_, Real.sqrt_nonneg _⟩
    · unfold Fourier.sinTerm
      rw [sum_map_zip_eq_sum_range (fun t s_ => s_ * Real.sin ((order : ℝ) * t - ntheta0))
        thetas signal hlen]
    · unfold Fourier.cosTerm
      rw [sum_map_zip_eq_sum_range (fun t s_ => s_ * Real.cos ((order : ℝ) * t - ntheta0))
        thetas signal hlen]
    · unfold Fourier.coefficient
      rw [if_neg hne]
      unfold Fourier.new
      rw [if_neg (not_lt.mpr (Real.sqrt_nonneg _))]

/-- Witness for C7 with a one-point grid at order 1. -/
theorem C7_fourier_coefficient_witness :
    Fourier.coefficient [0] [1] 0 0 = some ⟨(1 : ℝ), none⟩ := by
  have h := (C7_fourier_coefficient [0] [1] 1 0 rfl (by norm_num)).1
  simpa using h

/-- C2.  For every acoustic mode and schedule (with a positive mode order,
as the data model requires), the Simplified AFDF integral is obtained by
computing the heat release mode, scaling the saturation factors of its local
amplitudes over the burner grid by `gain·A_hrr/A_ac`, extracting the Fourier
coefficients of the gain values at order 0 and order `2·mode_order` with the
heat-release orientation angle as reference, and combining them with
`delta_chi = hrr_chi − acoustic_chi` and `chi = acoustic_chi` into the four
quaternion components stated in the design. -/
theorem C2_simplified_integral (df : AFDFSimplified) (acoustic_mode : SystemMode)
    (setup : Settings) (hn : 1 ≤ setup.parameters.mode_order) :
    ∃ n0 n2n theta2n : ℝ,
      saturated_gain (df.mode acoustic_mode) acoustic_mode setup
        = (setup.saturation.factor
            (setup.parameters.thetas.map
              (fun theta => (df.mode acoustic_mode).local_amplitude theta
                setup.parameters.mode_order))).map
          (fun sf => setup.parameters.gain * (df.mode acoustic_mode).a
            / acoustic_mode.a * sf)
      ∧ Fourier.coefficient setup.parameters.thetas
          (saturated_gain (df.mode acoustic_mode) acoustic_mode setup) 0
          (df.mode acoustic_mode).nth0 = some ⟨n0, none⟩
      ∧ Fourier.coefficient setup.parameters.thetas
          (saturated_gain (df.mode acoustic_mode) acoustic_mode setup)
          (2 * setup.parameters.mode_order)
          (df.mode acoustic_mode).nth0 = some ⟨n2n, some theta2n⟩
      ∧ df.integral acoustic_mode setup
        = ⟨0.5 * n2n * Real.cos (2 * (setup.parameters.mode_order : ℝ) * theta2n)
              * Real.cos (2 * acoustic_mode.chi
                + ((df.mode acoustic_mode).chi - acoustic_mode.chi))
            + n0 * Real.cos ((df.mode acoustic_mode).chi - acoustic_mode.chi)
            - setup.parameters.damping,
          0.5 * n2n * Real.sin (2 * (setup.parameters.mode_order : ℝ) * theta2n)
            * Real.cos (2 * acoustic_mode.chi
              + ((df.mode acoustic_mode).chi - acoustic_mode.chi)),
          -(0.5) * n2n * Real.sin (2 * (setup.parameters.mode_order : ℝ) * theta2n)
            * Real.sin (2 * acoustic_mode.chi
              + ((df.mode acoustic_mode).chi - acoustic_mode.chi)),
          0.5 * n2n * Real.cos (2 * (setup.parameters.mode_order : ℝ) * theta2n)
            * Real.sin (2 * acoustic_mode.chi
              + ((df.mode acoustic_mode).chi - acoustic_mode.chi))
            - n0 * Real.sin ((df.mode acoustic_mode).chi - acoustic_mode.chi)⟩ := by
  have hne : 2 * setup.parameters.mode_order ≠ 0 := by omega
  have h0 : Fourier.coefficient setup.parameters.thetas
      (saturated_gain (df.mode acoustic_mode) acoustic_mode setup) 0
      (df.mode acoustic_mode).nth0
      = some ⟨(saturated_gain (df.mode acoustic_mode) acoustic_mode setup).sum
          / ((saturated_gain (df.mode acoustic_mode) acoustic_mode setup).length : ℝ),
        none⟩ := rfl
  have h2 : Fourier.coefficient setup.parameters.thetas
      (saturated_gain (df.mode acoustic_mode) acoustic_mode setup)
      (2 * setup.parameters.mode_order) (df.mode acoustic_mode).nth0
      = some ⟨Real.sqrt ((Fourier.sinTerm setup.parameters.thetas
              (saturated_gain (df.mode acoustic_mode) acoustic_mode setup)
              (2 * setup.parameters.mode_order) (df.mode acoustic_mode).nth0) ^ 2
            + (Fourier.cosTerm setup.parameters.thetas
              (saturated_gain (df.mode acoustic_mode) acoustic_mode setup)
              (2 * setup.parameters.mode_order) (df.mode acoustic_mode).nth0) ^ 2),
          some (atan2 (Fourier.sinTerm setup.parameters.thetas
              (saturated_gain (df.mode acoustic_mode) acoustic_mode setup)
              (2 * setup.parameters.mode_order) (df.mode acoustic_mode).nth0)
            (Fourier.cosTerm setup.parameters.thetas
              (saturated_gain (df.mode acoustic_mode) acoustic_mode setup)
              (2 * setup.parameters.mode_order) (df.mode acoustic_mode).nth0)
            / ((2 * setup.parameters.mode_order : ℕ) : ℝ))⟩ := by
    unfold Fourier.coefficient
    rw [if_neg hne]
    unfold Fourier.new
    rw [if_neg (not_lt.mpr (Real.sqrt_nonneg _))]
  refine ⟨_, _, _, rfl, h0, h2, ?_⟩
  simp only [AFDFSimplified.integral, h0, h2, Option.getD_some, Quaternion.mk.injEq]
  refine ⟨by ring, by ring, by ring, by ring⟩

/-- Witness for C2 at a concrete unit-ratio describing function and the
default standing mode over the `s0` schedule (mode order 1). -/
theorem C2_simplified_integral_witness :
    ∃ n0 n2n theta2n : ℝ,
      saturated_gain ((AFDFSimplified.mk 1).mode sm0) sm0 s0
        = (s0.saturation.factor
            (s0.parameters.thetas.map
              (fun theta => ((AFDFSimplified.mk 1).mode sm0).local_amplitude theta
                s0.parameters.mode_order))).map
          (fun sf => s0.parameters.gain * ((AFDFSimplified.mk 1).mode sm0).a
            / sm0.a * sf)
      ∧ Fourier.coefficient s0.parameters.thetas
          (saturated_gain ((AFDFSimplified.mk 1).mode sm0) sm0 s0) 0
          ((AFDFSimplified.mk 1).mode sm0).nth0 = some ⟨n0, none⟩
      ∧ Fourier.coefficient s0.parameters.thetas
          (saturated_gain ((AFDFSimplified.mk 1).mode sm0) sm0 s0)
          (2 * s0.parameters.mode_order)
          ((AFDFSimplified.mk 1).mode sm0).nth0 = some ⟨n2n, some theta2n⟩
      ∧ (AFDFSimplified.mk 1).integral sm0 s0
        = ⟨0.5 * n2n * Real.cos (2 * (s0.parameters.mode_order : ℝ) * theta2n)
              * Real.cos (2 * sm0.chi + (((AFDFSimplified.mk 1).mode sm0).chi - sm0.chi))
            + n0 * Real.cos (((AFDFSimplified.mk 1).mode sm0).chi - sm0.chi)
            - s0.parameters.damping,
          0.5 * n2n * Real.sin (2 * (s0.parameters.mode_order : ℝ) * theta2n)
            * Real.cos (2 * sm0.chi + (((AFDFSimplified.mk 1).mode sm0).chi - sm0.chi)),
          -(0.5) * n2n * Real.sin (2 * (s0.parameters.mode_order : ℝ) * theta2n)
            * Real.sin (2 * sm0.chi + (((AFDFSimplified.mk 1).mode sm0).chi - sm0.chi)),
          0.5 * n2n * Real.cos (2 * (s0.parameters.mode_order : ℝ) * theta2n)
            * Real.sin (2 * sm0.chi + (((AFDFSimplified.mk 1).mode sm0).chi - sm0.chi))
            - n0 * Real.sin (((AFDFSimplified.mk 1).mode sm0).chi - sm0.chi)⟩ :=
  C2_simplified_integral (AFDFSimplified.mk 1) sm0 s0 (le_refl 1)

/-! Helper lemmas evaluating and inverting the cadence setters. -/

theorem set_timestep_eq_err_timestep (p : Parameters) (dt : ℚ)
    (h : dt ≤ 0 ∨ 1 < dt) :
    p.set_timestep dt = (p, .err .Timestep) := by
  unfold Parameters.set_timestep
  rw [if_pos h]

theorem set_timestep_eq_err_negative (p : Parameters) (dt : ℚ)
    (h1 : ¬(dt ≤ 0 ∨ 1 < dt)) (h2 : p.number_of_cycles < 0) :
    p.set_timestep dt = (p, .err .NegativeNumber) := by
  unfold Parameters.set_timestep
  rw [if_neg h1, if_pos h2]

theorem set_timestep_eq_panicked (p : Parameters) (dt : ℚ)
    (h1 : ¬(dt ≤ 0 ∨ 1 < dt)) (h2 : ¬(p.number_of_cycles < 0))
    (h3 : (round ((1 : ℚ) / dt)).toNat / p.saves_per_cycle = 0) :
    p.set_timestep dt
      = ({ p with
          total_steps := (⌈p.number_of_cycles / dt⌉).toNat,
          steps_per_cycle := (round ((1 : ℚ) / dt)).toNat,
          skip_per_save := 0 }, .panicked) := by
  unfold Parameters.set_timestep
  rw [if_neg h1, if_neg h2, if_pos h3]

theorem set_timestep_eq_ok (p : Parameters) (dt : ℚ)
    (h1 : ¬(dt ≤ 0 ∨ 1 < dt)) (h2 : ¬(p.number_of_cycles < 0))
    (h3 : ¬((round ((1 : ℚ) / dt)).toNat / p.saves_per_cycle = 0)) :
    p.set_timestep dt
      = ({ p with
          total_steps := (⌈p.number_of_cycles / dt⌉).toNat,
          steps_per_cycle := (round ((1 : ℚ) / dt)).toNat,
          skip_per_save := (round ((1 : ℚ) / dt)).toNat / p.saves_per_cycle,
          num_steps_to_save := (⌈p.number_of_cycles / dt⌉).toNat
            / ((round ((1 : ℚ) / dt)).toNat / p.saves_per_cycle),
          timestep := dt }, .ok) := by
  unfold Parameters.set_timestep
  rw [if_neg h1, if_neg h2, if_neg h3]

theorem set_timestep_ok_inv (p : Parameters) (dt : ℚ) (q : Parameters)
    (h : p.set_timestep dt = (q, .ok)) :
    ¬(dt ≤ 0 ∨ 1 < dt) ∧ ¬(p.number_of_cycles < 0)
    ∧ (round ((1 : ℚ) / dt)).toNat / p.saves_per_cycle ≠ 0
    ∧ q = { p with
        total_steps := (⌈p.number_of_cycles / dt⌉).toNat,
        steps_per_cycle := (round ((1 : ℚ) / dt)).toNat,
        skip_per_save := (round ((1 : ℚ) / dt)).toNat / p.saves_per_cycle,
        num_steps_to_save := (⌈p.number_of_cycles / dt⌉).toNat
          / ((round ((1 : ℚ) / dt)).toNat / p.saves_per_cycle),
        timestep := dt } := by
  unfold Parameters.set_timestep at h
  split_ifs at h with h1 h2 h3
  · simp at h
  · simp at h
  · simp at h
  · rw [Prod.mk.injEq] at h
    exact ⟨h1, h2, h3, h.1.symm⟩

theorem set_timestep_err_inv (p : Parameters) (dt : ℚ) (q : Parameters)
    (e : ParametersError) (h : p.set_timestep dt = (q, .err e)) :
    q = p ∧ (dt ≤ 0 ∨ 1 < dt ∨ p.number_of_cycles < 0) := by
  unfold Parameters.set_timestep at h
  split_ifs at h with h1 h2 h3
  · rw [Prod.mk.injEq] at h
    refine ⟨h.1.symm, ?_⟩
    rcases h1 with h' | h'
    · exact Or.inl h'
    · exact Or.inr (Or.inl h')
  · rw [Prod.mk.injEq] at h
    exact ⟨h.1.symm, Or.inr (Or.inr h2)⟩
  · simp at h
  · simp at h

theorem set_timestep_ok_derived (p : Parameters) (dt : ℚ) (q : Parameters)
    (h : p.set_timestep dt = (q, .ok)) :
    derivedConsistent q ∧ q.timestep = dt ∧ q.number_of_cycles = p.number_of_cycles
    ∧ q.saves_per_cycle = p.saves_per_cycle
    ∧ 1 ≤ q.skip_per_save ∧ q.saves_per_cycle ≤ q.steps_per_cycle := by
  obtain ⟨h1, h2, h3, hq⟩ := set_timestep_ok_inv p dt q h
  have hs0 : p.saves_per_cycle ≠ 0 := by
    intro hc
    exact h3 (by rw [hc, Nat.div_zero])
  have hle := (Nat.div_ne_zero_iff hs0).mp h3
  subst hq
  refine ⟨⟨rfl, rfl, rfl, rfl⟩, rfl, rfl, rfl, Nat.one_le_iff_ne_zero.mpr h3, hle⟩

theorem new_run (d g n : ℝ) (mo nb : ℕ) (im : Mode) (dt noc : ℚ) (spc : ℕ)
    (h1 : ¬(dt ≤ 0 ∨ 1 < dt)) (h2 : ¬ spc < 2) :
    Parameters.new d g n mo nb im dt noc spc
      = match ({ Parameters.raw d g n mo nb im dt noc spc with
            thetas := ((List.range nb).map
              (fun ind => 2 * Real.pi / (nb : ℝ) * (ind : ℝ))) }).set_timestep dt with
        | (q, .ok) => NewResult.ok q
        | (_, .err e) => NewResult.err e
        | (_, .panicked) => NewResult.panicked := by
  unfold Parameters.new
  rw [if_neg h1, if_neg h2]
  rfl

theorem match_init_err_iff (p : Parameters) (dt : ℚ) :
    (∃ e, (match p.set_timestep dt with
        | (q, .ok) => NewResult.ok q
        | (_, .err e) => NewResult.err e
        | (_, .panicked) => NewResult.panicked) = NewResult.err e)
      ↔ (dt ≤ 0 ∨ 1 < dt ∨ p.number_of_cycles < 0) := by
  by_cases c1 : dt ≤ 0 ∨ 1 < dt
  · rw [set_timestep_eq_err_timestep p dt c1]
    constructor
    · intro _
      rcases c1 with h' | h'
      · exact Or.inl h'
      · exact Or.inr (Or.inl h')
    · intro _
      exact ⟨.Timestep, rfl⟩
  · by_cases c2 : p.number_of_cycles < 0
    · rw [set_timestep_eq_err_negative p dt c1 c2]
      constructor
      · intro _
        exact Or.inr (Or.inr c2)
      · intro _
        exact ⟨.NegativeNumber, rfl⟩
    · constructor
      · rintro ⟨e, he⟩
        by_cases c3 : (round ((1 : ℚ) / dt)).toNat / p.saves_per_cycle = 0
        · rw [set_timestep_eq_panicked p dt c1 c2 c3] at he
          exact NewResult.noConfusion he
        · rw [set_timestep_eq_ok p dt c1 c2 c3] at he
          exact NewResult.noConfusion he
      · intro hc
        rcases hc with h' | h' | h'
        · exact absurd (Or.inl h') c1
        · exact absurd (Or.inr h') c1
        · exact absurd h' c2

theorem match_init_ok_inv (p : Parameters) (dt : ℚ) (q : Parameters)
    (h : (match p.set_timestep dt with
        | (q, .ok) => NewResult.ok q
        | (_, .err e) => NewResult.err e
        | (_, .panicked) => NewResult.panicked) = NewResult.ok q) :
    p.set_timestep dt = (q, .ok) := by
  rcases hst : p.set_timestep dt with ⟨q', o⟩
  rw [hst] at h
  cases o with
  | ok =>
    injection h with h'
    subst h'
    rfl
  | err e => exact NewResult.noConfusion h
  | panicked => exact NewResult.noConfusion h

/-- Counterexample to C3 as stated: the configuration `timestep = 1`,
`saves_per_cycle = 2`, `number_of_cycles = 1` satisfies every validity
condition of the claim (`timestep ∈ (0,1]`, `saves_per_cycle ≥ 2`,
`number_of_cycles ≥ 0`), yet construction panics: `steps_per_cycle =
round(1/1) = 1`, so `skip_per_save = 1 / 2 = 0` and the division
`total_steps / skip_per_save` is a `usize` division by zero. -/
theorem C3_construction_counterexample :
    Parameters.new 0 0 0 1 12 m0 1 1 2 = .panicked := by
  have c1 : ¬((1 : ℚ) ≤ 0 ∨ 1 < (1 : ℚ)) := by norm_num
  have c2 : ¬(2 < 2) := by norm_num
  rw [new_run 0 0 0 1 12 m0 1 1 2 c1 c2]
  rw [set_timestep_eq_panicked _ 1 c1 ?hnoc ?hdiv]
  case hnoc =>
    show ¬((1 : ℚ) < 0)
    norm_num
  case hdiv =>
    show (round ((1 : ℚ) / 1)).toNat / 2 = 0
    have h : round ((1 : ℚ) / 1) = 1 := by norm_num [round_eq]
    rw [h]
    decide

/-- C3 (amended).  Construction and the setters reject exactly
`timestep ∉ (0,1]`, `saves_per_cycle < 2` and `number_of_cycles < 0` with a
typed error; `new`, `set_timestep` and `set_saves_per_cycle` leave no partial
state on error, while `set_number_of_cycles` stores the new cycle count
before validating, so its error leaves that one field changed; for valid
configurations construction succeeds without panicking exactly when
additionally `saves_per_cycle ≤ round(1/timestep)` (otherwise
`skip_per_save = 0` and the `usize` division panics); after a successful
construction `skip_per_save ≥ 1` and `steps_per_cycle ≥ 1`, so the
integration loop's modulus operations cannot fail. -/
theorem C3_construction_validation (d g n : ℝ) (mo nb : ℕ) (im : Mode)
    (dt noc : ℚ) (spc : ℕ) (p : Parameters) :
    ((∃ e, Parameters.new d g n mo nb im dt noc spc = .err e)
      ↔ (dt ≤ 0 ∨ 1 < dt ∨ spc < 2 ∨ noc < 0))
    ∧ (0 < dt → dt ≤ 1 → 2 ≤ spc → 0 ≤ noc →
        spc ≤ (round ((1 : ℚ) / dt)).toNat →
        ∃ q, Parameters.new d g n mo nb im dt noc spc = .ok q)
    ∧ (0 < dt → dt ≤ 1 → 2 ≤ spc → 0 ≤ noc →
        (round ((1 : ℚ) / dt)).toNat < spc →
        Parameters.new d g n mo nb im dt noc spc = .panicked)
    ∧ (∀ q e, p.set_timestep dt = (q, .err e) →
        q = p ∧ (dt ≤ 0 ∨ 1 < dt ∨ p.number_of_cycles < 0))
    ∧ (spc < 2 → p.set_saves_per_cycle spc = (p, .err .Saving))
    ∧ (0 < p.timestep → p.timestep ≤ 1 → noc < 0 →
        p.set_number_of_cycles noc
          = ({ p with number_of_cycles := noc }, .err .NegativeNumber))
    ∧ (∀ q, Parameters.new d g n mo nb im dt noc spc = .ok q →
        1 ≤ q.skip_per_save ∧ 1 ≤ q.steps_per_cycle) := by
  refine ⟨?_, ?_, ?_, ?_, ?_, ?_, ?_⟩
  · -- typed errors exactly at the invalid configurations
    by_cases c1 : dt ≤ 0 ∨ 1 < dt
    · have hnew : Parameters.new d g n mo nb im dt noc spc = .err .Timestep := by
        unfold Parameters.new
        rw [if_pos c1]
      rw [hnew]
      constructor
      · intro _
        rcases c1 with h' | h'
        · exact Or.inl h'
        · exact Or.inr (Or.inl h')
      · intro _
        exact ⟨.Timestep, rfl⟩
    · by_cases c2 : spc < 2
      · have hnew : Parameters.new d g n mo nb im dt noc spc = .err .Saving := by
          unfold Parameters.new
          rw [if_neg c1, if_pos c2]
        rw [hnew]
        constructor
        · intro _
          exact Or.inr (Or.inr (Or.inl c2))
        · intro _
          exact ⟨.Saving, rfl⟩
      · rw [new_run d g n mo nb im dt noc spc c1 c2]
        rw [match_init_err_iff]
        constructor
        · intro h'
          rcases h' with h' | h' | h'
          · exact Or.inl h'
          · exact Or.inr (Or.inl h')
          · exact Or.inr (Or.inr (Or.inr h'))
        · intro h'
          rcases h' with h' | h' | h' | h'
          · exact Or.inl h'
          · exact Or.inr (Or.inl h')
          · exact absurd h' c2
          · exact Or.inr (Or.inr h')
  · -- success under the additional coverage condition
    intro hdt0 hdt1 hspc hnoc hfit
    have c1 : ¬(dt ≤ 0 ∨ 1 < dt) := by
      rintro (h' | h') <;> linarith
    have c2 : ¬ spc < 2 := not_lt.mpr hspc
    have hs0 : spc ≠ 0 := by omega
    rw [new_run d g n mo nb im dt noc spc c1 c2]
    rw [set_timestep_eq_ok _ dt c1 (not_lt.mpr hnoc)
      ((Nat.div_ne_zero_iff hs0).mpr hfit)]
    exact ⟨_, rfl⟩
  · -- panic when the save cadence is not covered by the steps per cycle
    intro hdt0 hdt1 hspc hnoc hunfit
    have c1 : ¬(dt ≤ 0 ∨ 1 < dt) := by
      rintro (h' | h') <;> linarith
    have c2 : ¬ spc < 2 := not_lt.mpr hspc
    rw [new_run d g n mo nb im dt noc spc c1 c2]
    rw [set_timestep_eq_panicked _ dt c1 (not_lt.mpr hnoc)
      (Nat.div_eq_of_lt hunfit)]
  · -- set_timestep errors leave the state unchanged
    intro q e h
    exact set_timestep_err_inv p dt q e h
  · -- set_saves_per_cycle rejects an undersampling cadence unchanged
    intro h
    unfold Parameters.set_saves_per_cycle
    rw [if_pos h]
  · -- set_number_of_cycles stores the cycle count before validating
    intro ht0 ht1 hneg
    have c1 : ¬(p.timestep ≤ 0 ∨ 1 < p.timestep) := by
      rintro (h' | h') <;> linarith
    unfold Parameters.set_number_of_cycles
    exact set_timestep_eq_err_negative _ p.timestep c1 hneg
  · -- a successful construction leaves the loop total
    intro q hq
    by_cases c1 : dt ≤ 0 ∨ 1 < dt
    · exfalso
      unfold Parameters.new at hq
      rw [if_pos c1] at hq
      exact NewResult.noConfusion hq
    by_cases c2 : spc < 2
    · exfalso
      unfold Parameters.new at hq
      rw [if_neg c1, if_pos c2] at hq
      exact NewResult.noConfusion hq
    rw [new_run d g n mo nb im dt noc spc c1 c2] at hq
    have hst := match_init_ok_inv _ dt q hq
    have hd := set_timestep_ok_derived _ dt q hst
    have hsaves : q.saves_per_cycle = spc := hd.2.2.2.1
    have hsteps := hd.2.2.2.2.2
    refine ⟨hd.2.2.2.2.1, ?_⟩
    omega

/-- Witness for the amended C3: a valid fitting configuration succeeds; a
valid non-fitting one panics; each setter error case behaves as stated; and
the successfully constructed `q3` has positive loop divisors. -/
theorem C3_construction_validation_witness :
    (∃ q, Parameters.new 0 0 0 1 12 m0 (1/2) 0 2 = .ok q
        ∧ 1 ≤ q.skip_per_save ∧ 1 ≤ q.steps_per_cycle)
    ∧ Parameters.new 0 0 0 1 12 m0 (1/2) 0 3 = .panicked
    ∧ (p0 = p0 ∧ ((2 : ℚ) ≤ 0 ∨ 1 < (2 : ℚ) ∨ p0.number_of_cycles < 0))
    ∧ p0.set_saves_per_cycle 1 = (p0, .err .Saving)
    ∧ p0.set_number_of_cycles (-1)
        = ({ p0 with number_of_cycles := -1 }, .err .NegativeNumber) := by
  have h := C3_construction_validation 0 0 0 1 12 m0 (1/2) 0 2 p0
  have h3 := C3_construction_validation 0 0 0 1 12 m0 (1/2) 0 3 p0
  have h2 := C3_construction_validation 0 0 0 1 12 m0 2 (-1) 1 p0
  have hround : (round ((1 : ℚ) / (1/2))).toNat = 2 := by
    have h' : round ((1 : ℚ) / (1/2)) = 2 := by norm_num [round_eq]
    rw [h']
    decide
  refine ⟨?_, ?_, ?_, ?_, ?_⟩
  · obtain ⟨q, hq⟩ := h.2.1 (by norm_num) (by norm_num) le_rfl (le_refl 0)
      (by rw [hround])
    exact ⟨q, hq, h.2.2.2.2.2.2 q hq⟩
  · exact h3.2.2.1 (by norm_num) (by norm_num) (by norm_num) (le_refl 0)
      (by rw [hround]; norm_num)
  · exact h2.2.2.2.1 p0 .Timestep (set_timestep_eq_err_timestep p0 2 (by norm_num))
  · exact h2.2.2.2.2.1 (by norm_num)
  · have ht : p0.timestep = 1/2 := rfl
    exact h2.2.2.2.2.2.1 (by rw [ht]; norm_num) (by rw [ht]; norm_num) (by norm_num)

/-- Rewriting helper: the log times of a run in terms of the three cadence
values a parameter set carries. -/
theorem runLogTimes_congr (q : Parameters) (t k : ℕ) (ts : ℚ)
    (h1 : q.total_steps = t) (h2 : q.skip_per_save = k) (h3 : q.timestep = ts) :
    runLogTimes q
      = 0 :: ((List.range' 1 t).filter (fun ind => ind % k == 0)).map
          (fun ind => (ind : ℚ) * ts) := by
  unfold runLogTimes
  rw [h1, h2, h3]

set_option maxRecDepth 400000 in
/-- C4.  Every successful cadence change (set_timestep, set_number_of_cycles,
set_saves_per_cycle, and construction) re-derives
`steps_per_cycle = round(1/timestep)`,
`total_steps = ceil(number_of_cycles/timestep)`,
`skip_per_save = steps_per_cycle / saves_per_cycle` (integer division) and
`num_steps_to_save = total_steps / skip_per_save`; and the end-to-end
scenario (`timestep = 1e-4`, `saves_per_cycle = 50`, one cycle) yields
10000, 10000, 200 and 50, with exactly 51 logged samples: time 0 plus one
sample at time `ind·timestep` for every step index `ind` that is a multiple
of `skip_per_save`. -/
theorem C4_derived_quantities :
    (∀ (p : Parameters) (dt : ℚ) (q : Parameters), p.set_timestep dt = (q, .ok) →
      derivedConsistent q ∧ q.timestep = dt
      ∧ q.number_of_cycles = p.number_of_cycles
      ∧ q.saves_per_cycle = p.saves_per_cycle)
    ∧ (∀ (p : Parameters) (x : ℚ) (q : Parameters),
        p.set_number_of_cycles x = (q, .ok) → derivedConsistent q)
    ∧ (∀ (p : Parameters) (sv : ℕ) (q : Parameters),
        p.set_saves_per_cycle sv = (q, .ok) → derivedConsistent q)
    ∧ (∀ (d g n : ℝ) (mo nb : ℕ) (im : Mode) (dt noc : ℚ) (spc : ℕ) (q : Parameters),
        Parameters.new d g n mo nb im dt noc spc = .ok q → derivedConsistent q)
    ∧ (∀ (d g n : ℝ) (im : Mode),
        ∃ q, Parameters.new d g n 1 12 im (1/10000) 1 50 = .ok q
          ∧ q.steps_per_cycle = 10000 ∧ q.total_steps = 10000
          ∧ q.skip_per_save = 200 ∧ q.num_steps_to_save = 50
          ∧ (runLogTimes q).length = 51
          ∧ runLogTimes q
            = 0 :: (((List.range 50).map (fun k => 200 * (k + 1)) : List ℕ).map
                (fun ind => (ind : ℚ) * (1/10000)))) := by
  have hderive : ∀ (p : Parameters) (dt : ℚ) (q : Parameters),
      p.set_timestep dt = (q, .ok) →
      derivedConsistent q ∧ q.timestep = dt
      ∧ q.number_of_cycles = p.number_of_cycles
      ∧ q.saves_per_cycle = p.saves_per_cycle := by
    intro p dt q h
    have hd := set_timestep_ok_derived p dt q h
    exact ⟨hd.1, hd.2.1, hd.2.2.1, hd.2.2.2.1⟩
  refine ⟨hderive, ?_, ?_, ?_, ?_⟩
  · intro p x q h
    unfold Parameters.set_number_of_cycles at h
    exact (hderive _ _ _ h).1
  · intro p sv q h
    unfold Parameters.set_saves_per_cycle at h
    split_ifs at h with hc
    · simp at h
    · exact (hderive _ _ _ h).1
  · intro d g n mo nb im dt noc spc q hq
    by_cases c1 : dt ≤ 0 ∨ 1 < dt
    · exfalso
      unfold Parameters.new at hq
      rw [if_pos c1] at hq
      exact NewResult.noConfusion hq
    by_cases c2 : spc < 2
    · exfalso
      unfold Parameters.new at hq
      rw [if_neg c1, if_pos c2] at hq
      exact NewResult.noConfusion hq
    rw [new_run d g n mo nb im dt noc spc c1 c2] at hq
    exact (hderive _ _ _ (match_init_ok_inv _ dt q hq)).1
  · intro d g n im
    have c1 : ¬((1/10000 : ℚ) ≤ 0 ∨ 1 < (1/10000 : ℚ)) := by norm_num
    have c2 : ¬(50 < 2) := by norm_num
    have hround : round ((1 : ℚ) / (1/10000)) = 10000 := by norm_num [round_eq]
    have hceil : ⌈(1 : ℚ) / (1/10000)⌉ = 10000 := by norm_num
    have hsteps : (round ((1 : ℚ) / (1/10000))).toNat = 10000 := by
      rw [hround]
      decide
    have htotal : (⌈(1 : ℚ) / (1/10000)⌉).toNat = 10000 := by
      rw [hceil]
      decide
    have hnat : (List.range' 1 (10000 : ℕ)).filter (fun ind => ind % 200 == 0)
        = (List.range 50).map (fun k => 200 * (k + 1)) := by decide
    rw [new_run d g n 1 12 im (1/10000) 1 50 c1 c2]
    rw [set_timestep_eq_ok _ (1/10000) c1 ?hnoc ?hdiv]
    case hnoc =>
      show ¬((1 : ℚ) < 0)
      norm_num
    case hdiv =>
      show ¬((round ((1 : ℚ) / (1/10000))).toNat / 50 = 0)
      rw [hsteps]
      decide
    refine ⟨_, rfl, ?_, ?_, ?_, ?_, ?_, ?_⟩
    · show (round ((1 : ℚ) / (1/10000))).toNat = 10000
      exact hsteps
    · show (⌈(1 : ℚ) / (1/10000)⌉).toNat = 10000
      exact htotal
    · show (round ((1 : ℚ) / (1/10000))).toNat / 50 = 200
      rw [hsteps]
    · show (⌈(1 : ℚ) / (1/10000)⌉).toNat
          / ((round ((1 : ℚ) / (1/10000))).toNat / 50) = 50
      rw [hsteps, htotal]
    · rw [runLogTimes_congr _ 10000 200 (1/10000) ?_ ?_ ?_]
      · decide
      · show (⌈(1 : ℚ) / (1/10000)⌉).toNat = 10000
        exact htotal
      · show (round ((1 : ℚ) / (1/10000))).toNat / 50 = 200
        rw [hsteps]
      · rfl
    · rw [runLogTimes_congr _ 10000 200 (1/10000) ?_ ?_ ?_]
      · rw [hnat]
      · show (⌈(1 : ℚ) / (1/10000)⌉).toNat = 10000
        exact htotal
      · show (round ((1 : ℚ) / (1/10000))).toNat / 50 = 200
        rw [hsteps]
      · rfl

/-- Witness for C4: one concrete successful call of each cadence-changing
entry point, with the re-derived values. -/
theorem C4_derived_quantities_witness :
    (∃ q, p0.set_timestep (1/2) = (q, .ok) ∧ derivedConsistent q ∧ q.timestep = 1/2
      ∧ q.number_of_cycles = p0.number_of_cycles
      ∧ q.saves_per_cycle = p0.saves_per_cycle)
    ∧ (∃ q, p0.set_number_of_cycles 0 = (q, .ok) ∧ derivedConsistent q)
    ∧ (∃ q, p0.set_saves_per_cycle 2 = (q, .ok) ∧ derivedConsistent q)
    ∧ (∃ q, Parameters.new 0 0 0 1 12 m0 (1/2) 0 2 = .ok q ∧ derivedConsistent q) := by
  have c1 : ¬((1/2 : ℚ) ≤ 0 ∨ 1 < (1/2 : ℚ)) := by norm_num
  have ht : p0.timestep = 1/2 := rfl
  have c1t : ¬(p0.timestep ≤ 0 ∨ 1 < p0.timestep) := by
    rw [ht]
    exact c1
  have hround2 : (round ((1 : ℚ) / (1/2))).toNat = 2 := by
    have h' : round ((1 : ℚ) / (1/2)) = 2 := by norm_num [round_eq]
    rw [h']
    decide
  refine ⟨?_, ?_, ?_, ?_⟩
  · have hok := set_timestep_eq_ok p0 (1/2) c1 ?hn ?hd
    case hn =>
      show ¬((0 : ℚ) < 0)
      norm_num
    case hd =>
      show ¬((round ((1 : ℚ) / (1/2))).toNat / 2 = 0)
      rw [hround2]
      decide
    exact ⟨_, hok, C4_derived_quantities.1 p0 (1/2) _ hok⟩
  · have hex : ∃ q, p0.set_number_of_cycles 0 = (q, .ok) := by
      show ∃ q, ({ p0 with number_of_cycles := 0 } : Parameters).set_timestep p0.timestep
        = (q, .ok)
      rw [set_timestep_eq_ok _ p0.timestep c1t ?hn ?hd]
      case hn =>
        show ¬((0 : ℚ) < 0)
        norm_num
      case hd =>
        rw [ht]
        show ¬((round ((1 : ℚ) / (1/2))).toNat / 2 = 0)
        rw [hround2]
        decide
      exact ⟨_, rfl⟩
    obtain ⟨q, hq⟩ := hex
    exact ⟨q, hq, C4_derived_quantities.2.1 p0 0 q hq⟩
  · have hex : ∃ q, p0.set_saves_per_cycle 2 = (q, .ok) := by
      unfold Parameters.set_saves_per_cycle
      rw [if_neg (by norm_num : ¬(2 < 2))]
      rw [set_timestep_eq_ok _ p0.timestep c1t ?hn ?hd]
      case hn =>
        show ¬((0 : ℚ) < 0)
        norm_num
      case hd =>
        rw [ht]
        show ¬((round ((1 : ℚ) / (1/2))).toNat / 2 = 0)
        rw [hround2]
        decide
      exact ⟨_, rfl⟩
    obtain ⟨q, hq⟩ := hex
    exact ⟨q, hq, C4_derived_quantities.2.2.1 p0 2 q hq⟩
  · have hex : ∃ q, Parameters.new 0 0 0 1 12 m0 (1/2) 0 2 = .ok q := by
      rw [new_run 0 0 0 1 12 m0 (1/2) 0 2 c1 (by norm_num)]
      rw [set_timestep_eq_ok _ (1/2) c1 ?hn ?hd]
      case hn =>
        show ¬((0 : ℚ) < 0)
        norm_num
      case hd =>
        show ¬((round ((1 : ℚ) / (1/2))).toNat / 2 = 0)
        rw [hround2]
        decide
      exact ⟨_, rfl⟩
    obtain ⟨q, hq⟩ := hex
    exact ⟨q, hq, C4_derived_quantities.2.2.2.1 0 0 0 1 12 m0 (1/2) 0 2 q hq⟩

end AzimuthalFDF
